import Mathlib

/-!
Verification of the NiceShot media-capture extension (src/src/niceshot.cpp).

The development shallowly embeds the parts of the extension that the
specification talks about:

* the async PNG job system (job registry, id counter, lifecycle functions
  niceshot_init / niceshot_shutdown / niceshot_save_png_async /
  niceshot_get_job_status / niceshot_cleanup_job /
  niceshot_get_pending_job_count),
* the address-validation prefix of the synchronous niceshot_save_png,
* the video-recording session (niceshot_start_recording,
  niceshot_record_frame, the background encoding-thread step, and
  niceshot_stop_recording).

Modelling conventions:

* size_t and the memory-accounting atomics are 64-bit and wrap, so their
  arithmetic is carried out modulo 2 ^ 64 (uadd / usub / umul below).
* The uint64_t session counters (frames_captured / frames_encoded /
  frames_dropped) are incremented by one per API call; reaching their wrap
  point would take 2 ^ 64 calls, so they are modelled as Nat.
* GameMaker passes every numeric argument as a C double; the values that
  actually flow through this interface (small integral codes, uint32 job
  ids, parsed settings) are all integral and exactly representable, and
  doubles are modelled as Int, both for arguments and returned codes.
  For a fractional argument or settings field the code and the model can
  take a different validation branch (a fractional value in (0, 1) passes
  a positive-value check before truncating to 0); none of the verified
  claims distinguishes those runs.
* Raw host memory is a byte function Nat → Nat; a pixel pointer is a Nat
  address into it.  Copies (memcpy into a PngJob or VideoFrame) store the
  length together with the byte function.
* sizeof(VideoFrame), a platform compile-time constant, is an explicit
  parameter named ov (the per-frame overhead).
* Out-of-bounds std::vector indexing is undefined behavior and is modelled
  by Option: a none result means the run reached undefined behavior.
* Console logging is not modelled, except that niceshot_stop_recording
  reports the counter triple it logs, which one claim mentions.
-/

namespace NiceShot

/-- The modulus of 64-bit size_t arithmetic. -/
def U64 : Nat := 2 ^ 64

/-- size_t addition (wraps modulo 2 ^ 64). -/
def uadd (a b : Nat) : Nat := (a + b) % U64

/-- size_t subtraction, as performed by fetch_sub (wraps modulo 2 ^ 64). -/
def usub (a b : Nat) : Nat := (a % U64 + (U64 - b % U64)) % U64

/-- size_t multiplication (wraps modulo 2 ^ 64). -/
def umul (a b : Nat) : Nat := (a * b) % U64

theorem uadd_eq_of_lt {a b : Nat} (h : a + b < U64) : uadd a b = a + b := by
  simpa [uadd] using Nat.mod_eq_of_lt h

theorem umul_eq_of_lt {a b : Nat} (h : a * b < U64) : umul a b = a * b := by
  simpa [umul] using Nat.mod_eq_of_lt h

theorem usub_eq_of_le {a b : Nat} (hb : b ≤ a) (ha : a < U64) : usub a b = a - b := by
  have hbU : b < U64 := lt_of_le_of_lt hb ha
  have h1 : a % U64 = a := Nat.mod_eq_of_lt ha
  have h2 : b % U64 = b := Nat.mod_eq_of_lt hbU
  have hU : 0 < U64 := by decide
  have h3 : a % U64 + (U64 - b % U64) = (a - b) + U64 := by
    rw [h1, h2]
    omega
  rw [usub, h3]
  rw [Nat.add_mod_right]
  exact Nat.mod_eq_of_lt (by omega)

/-! ### String scanning models

The extension receives pointers and settings as strings and parses them
with sscanf("%llx") and std::atof / std::getline. -/

/-- Value of one hexadecimal digit character, if it is one. -/
def hexDigitVal (c : Char) : Option Nat :=
  if 48 ≤ c.toNat ∧ c.toNat ≤ 57 then some (c.toNat - 48)
  else if 97 ≤ c.toNat ∧ c.toNat ≤ 102 then some (c.toNat - 87)
  else if 65 ≤ c.toNat ∧ c.toNat ≤ 70 then some (c.toNat - 55)
  else none

/-- Longest prefix of hexadecimal digit values. -/
def takeHex : List Char → List Nat
  | [] => []
  | c :: rest =>
    match hexDigitVal c with
    | some v => v :: takeHex rest
    | none => []

/-- Model of sscanf with the llx conversion applied to the buffer-pointer
strings: skip leading whitespace, allow an optional 0x / 0X prefix, then
read a run of hexadecimal digits.  No digits is a matching failure (sscanf
returns a count other than one).  A value that does not fit in unsigned
long long is undefined for sscanf and is mapped to failure as well; every
caller in the source treats a failed parse and a zero address identically,
so the observable behavior is unaffected by that choice. -/
def scanHexLLX (s : String) : Option Nat :=
  let cs := s.data.dropWhile Char.isWhitespace
  let cs2 :=
    match cs with
    | '0' :: 'x' :: rest => rest
    | '0' :: 'X' :: rest => rest
    | _ => cs
  let ds := takeHex cs2
  if ds.isEmpty then none
  else
    let v := ds.foldl (fun a d => 16 * a + d) 0
    if v < U64 then some v else none

/-- Value of a run of decimal digit characters. -/
def decValue (cs : List Char) : Nat :=
  cs.foldl (fun a c => 10 * a + (c.toNat - 48)) 0

/-- Model of the C library atof as used on the comma-separated settings
fields: optional leading whitespace, an optional sign, a run of decimal
digits.  A fractional part or exponent is not modelled (see the header
note on doubles); the settings fields this interface documents are plain
decimal integers, and atof of a string without leading digits is 0. -/
def atofModel (s : String) : Int :=
  let cs0 := s.data.dropWhile Char.isWhitespace
  let signed :=
    match cs0 with
    | '-' :: rest => (true, rest)
    | '+' :: rest => (false, rest)
    | _ => (false, cs0)
  let v : Int := (decValue (signed.2.takeWhile Char.isDigit) : Int)
  if signed.1 then -v else v

/-- Model of static_cast from double to uint32_t: truncation toward zero
for in-range values (the cast is undefined outside [0, 2 ^ 32); the
wrapped value is a modelling choice there, and the source only performs
the cast after checking the value is positive). -/
def doubleToU32 (x : Int) : Nat := x.toNat % 2 ^ 32

/-- Model of static_cast from double to size_t, analogously. -/
def doubleToU64 (x : Int) : Nat := x.toNat % 2 ^ 64

/-- Model of the settings-splitting loop in niceshot_start_recording:
while (std::getline(ss, item, ',')) params.push_back(item).  getline
consumes the delimiter and fails at end of stream, so a trailing empty
segment after a final comma is not produced, and an empty input yields an
empty list. -/
def splitCommaAux : List Char → List Char → List String
  | [], acc => [String.mk acc.reverse]
  | ',' :: rest, acc =>
    match rest with
    | [] => [String.mk acc.reverse]
    | _ :: _ => String.mk acc.reverse :: splitCommaAux rest []
  | c :: rest, acc => splitCommaAux rest (c :: acc)

/-- Split a settings string at commas, with getline semantics. -/
def splitComma (cs : List Char) : List String :=
  match cs with
  | [] => []
  | _ => splitCommaAux cs []

/-! ### Video recording data model -/

/-- enum class RecordingStatus. -/
inductive RecordingStatus where
  | NOT_RECORDING
  | RECORDING
  | FINALIZING
  | ERROR_STATE
deriving DecidableEq, Repr

/-- Numeric values of RecordingStatus, as returned through the double ABI. -/
def RecordingStatus.code : RecordingStatus → Int
  | .NOT_RECORDING => 0
  | .RECORDING => 1
  | .FINALIZING => 2
  | .ERROR_STATE => -1

/-- struct VideoFrame.  pixel_data is the copied byte vector, stored as its
length plus a byte function; the high_resolution_clock timestamp is real
time and is not modelled. -/
structure VideoFrame where
  pixel_data_len : Nat
  pixel_data : Nat → Nat
  width : Nat
  height : Nat
  frame_number : Nat

/-- The VideoFrame constructor: resizes pixel_data to
static_cast(size_t)(width) * height * 4 bytes and memcpys them from the
source pointer. -/
def VideoFrame.make (mem : Nat → Nat) (addr w h frame_num : Nat) : VideoFrame :=
  let buffer_size := umul (umul w h) 4
  { pixel_data_len := buffer_size
    pixel_data := fun i => mem (addr + i)
    width := w
    height := h
    frame_number := frame_num }

/-- VideoFrame::get_memory_size: pixel_data.size() + sizeof(VideoFrame).
The compile-time constant sizeof(VideoFrame) is the parameter ov. -/
def VideoFrame.get_memory_size (ov : Nat) (f : VideoFrame) : Nat :=
  uadd f.pixel_data_len ov

/-- struct VideoRecordingSession (mutexes, condition variables and the
thread handle carry no data and are not part of the state; the
start-time timestamp is real time and is not modelled). -/
structure VideoRecordingSession where
  width : Nat
  height : Nat
  fps : Int
  bitrate_kbps : Int
  output_filepath : String
  max_buffer_frames : Nat
  frame_buffer : List VideoFrame
  status : RecordingStatus
  frames_captured : Nat
  frames_encoded : Nat
  frames_dropped : Nat
  current_buffer_memory : Nat
  max_buffer_memory : Nat
  stop_encoding : Bool

/-- The VideoRecordingSession constructor: zeroed counters, empty buffer,
NOT_RECORDING, and max_buffer_memory = frame_size * max_buffer_frames
where frame_size = (size_t)width * height * 4 + sizeof(VideoFrame). -/
def VideoRecordingSession.make (ov w h : Nat) (f bitrate : Int) (max_frames : Nat)
    (filepath : String) : VideoRecordingSession :=
  let frame_size := uadd (umul (umul w h) 4) ov
  { width := w
    height := h
    fps := f
    bitrate_kbps := bitrate
    output_filepath := filepath
    max_buffer_frames := max_frames
    frame_buffer := []
    status := .NOT_RECORDING
    frames_captured := 0
    frames_encoded := 0
    frames_dropped := 0
    current_buffer_memory := 0
    max_buffer_memory := umul frame_size max_frames
    stop_encoding := false }

/-- The per-call frame footprint computed by niceshot_record_frame:
(size_t)width * height * 4 + sizeof(VideoFrame). -/
def frameSizeOf (ov : Nat) (s : VideoRecordingSession) : Nat :=
  uadd (umul (umul s.width s.height) 4) ov

/-- Result of one niceshot_record_frame call: the returned double code, the
global session slot afterwards, and whether a pixel copy was made (the
VideoFrame constructor, which performs the memcpy, ran). -/
structure RecordFrameResult where
  ret : Int
  session : Option VideoRecordingSession
  madeCopy : Bool

/-- niceshot_record_frame.  A none buffer_ptr_str models a NULL argument.
The global g_recording_session slot is the last argument. -/
def niceshot_record_frame (ov : Nat) (mem : Nat → Nat) (buffer_ptr_str : Option String)
    (g : Option VideoRecordingSession) : RecordFrameResult :=
  match buffer_ptr_str with
  | none => ⟨0, g, false⟩
  | some str =>
    match g with
    | none => ⟨0, none, false⟩
    | some sess =>
      if sess.status ≠ .RECORDING then ⟨0, some sess, false⟩
      else
        match scanHexLLX str with
        | none => ⟨0, some sess, false⟩
        | some buffer_addr =>
          if buffer_addr = 0 then ⟨0, some sess, false⟩
          else
            let frame_size := frameSizeOf ov sess
            if sess.max_buffer_memory < uadd sess.current_buffer_memory frame_size then
              ⟨-1, some { sess with frames_dropped := sess.frames_dropped + 1 }, false⟩
            else
              let frame := VideoFrame.make mem buffer_addr sess.width sess.height
                sess.frames_captured
              let sess1 :=
                { sess with
                  current_buffer_memory :=
                    uadd sess.current_buffer_memory (frame.get_memory_size ov)
                  frame_buffer := sess.frame_buffer ++ [frame] }
              ⟨1, some { sess1 with frames_captured := sess1.frames_captured + 1 }, true⟩

/-- One iteration of the loop body of video_encoding_thread_main once a
frame is available: pop the head of the frame buffer, fetch_sub its
memory size, and (after the placeholder encode) increment frames_encoded.
Returns the consumed frame, or none when the buffer was empty (the thread
then merely waits). -/
def video_encoding_step (ov : Nat) (s : VideoRecordingSession) :
    VideoRecordingSession × Option VideoFrame :=
  match s.frame_buffer with
  | [] => (s, none)
  | frame :: rest =>
    ({ s with
        frame_buffer := rest
        current_buffer_memory := usub s.current_buffer_memory (frame.get_memory_size ov)
        frames_encoded := s.frames_encoded + 1 },
      some frame)

/-- The session as niceshot_start_recording leaves it right after creation:
stop_encoding false, status RECORDING, encoding thread spawned. -/
def startedSession (ov w h : Nat) (f bitrate : Int) (max_frames : Nat)
    (filepath : String) : VideoRecordingSession :=
  { VideoRecordingSession.make ov w h f bitrate max_frames filepath with
    status := .RECORDING
    stop_encoding := false }

/-- The five settings fields read by niceshot_start_recording: params[0]
through params[4] of the comma split.  std::vector indexing past the end
is undefined behavior, hence the Option result: none exactly when some of
the five reads is out of bounds. -/
def startFieldsOf (settings : String) : Option (Int × Int × Int × Int × Int) :=
  let params := splitComma settings.data
  match params.get? 0, params.get? 1, params.get? 2, params.get? 3, params.get? 4 with
  | some p0, some p1, some p2, some p3, some p4 =>
    some (atofModel p0, atofModel p1, atofModel p2, atofModel p3, atofModel p4)
  | _, _, _, _, _ => none

/-- Result of one niceshot_start_recording call: the returned double code
and the global session slot afterwards. -/
structure StartResult where
  ret : Int
  session : Option VideoRecordingSession

/-- niceshot_start_recording.  none string arguments model NULL; a none
overall result means the call ran into the out-of-bounds settings read
(undefined behavior).  The code logs when the split does not have exactly
five fields but continues regardless. -/
def niceshot_start_recording (ov : Nat) (g_initialized : Bool)
    (settings_str filepath : Option String) (g : Option VideoRecordingSession) :
    Option StartResult :=
  if g_initialized = false then some ⟨0, g⟩
  else
    match settings_str, filepath with
    | some settings, some fp =>
      match startFieldsOf settings with
      | none => none
      | some (width, height, fps, bitrate_kbps, max_buffer_frames) =>
        if width ≤ 0 ∨ height ≤ 0 ∨ fps ≤ 0 ∨ bitrate_kbps ≤ 0 ∨ max_buffer_frames ≤ 0 then
          some ⟨0, g⟩
        else
          match g with
          | some sess =>
            if sess.status = .RECORDING then some ⟨0, some sess⟩
            else
              some ⟨1, some (startedSession ov (doubleToU32 width) (doubleToU32 height) fps
                bitrate_kbps (doubleToU64 max_buffer_frames) fp)⟩
          | none =>
            some ⟨1, some (startedSession ov (doubleToU32 width) (doubleToU32 height) fps
              bitrate_kbps (doubleToU64 max_buffer_frames) fp)⟩
    | _, _ => some ⟨0, g⟩

/-- The session right after niceshot_stop_recording signals the encoder:
status FINALIZING, stop_encoding true. -/
def stopSignalled (s : VideoRecordingSession) : VideoRecordingSession :=
  { s with status := .FINALIZING, stop_encoding := true }

/-- k iterations of the encoder loop (each consumes the head frame when one
is buffered).  The number of iterations the background thread performs
between the stop signal and its exit is scheduling-dependent — the loop
condition tests stop_encoding at the top, so after the signal the thread
consumes at most one more frame rather than draining the buffer — and is
therefore kept as a parameter; the stop-claim theorem holds for every
value of it. -/
def encodeSteps (ov : Nat) : Nat → VideoRecordingSession → VideoRecordingSession
  | 0, s => s
  | k + 1, s => encodeSteps ov k (video_encoding_step ov s).1

/-- Result of one niceshot_stop_recording call: the returned double code,
the global session slot afterwards, and the counter triple
(captured, encoded, dropped) the function logs after joining the encoder
thread (none when nothing was logged). -/
structure StopResult where
  ret : Int
  session : Option VideoRecordingSession
  logged : Option (Nat × Nat × Nat)

/-- niceshot_stop_recording: a no-op returning 0.0 unless a session exists
with status RECORDING; otherwise it sets FINALIZING, signals the encoder
thread to stop, joins it (k is the scheduling-dependent number of encoder
iterations that run between the signal and the thread exit), logs the
final counters and discards the session. -/
def niceshot_stop_recording (ov k : Nat) (g : Option VideoRecordingSession) : StopResult :=
  match g with
  | none => ⟨0, none, none⟩
  | some sess =>
    if sess.status ≠ .RECORDING then ⟨0, some sess, none⟩
    else
      let joined := encodeSteps ov k (stopSignalled sess)
      ⟨1, none, some (joined.frames_captured, joined.frames_encoded, joined.frames_dropped)⟩

/-! ### Recording traces

Interleavings of producer pushes and background-thread pops, for the
session-level invariants.  The encodedSeq field is a history variable
recording the frame numbers in the order the encoder consumed them. -/

/-- One observable event on a live session. -/
inductive SessOp where
  | push (buffer_ptr_str : Option String) (mem : Nat → Nat)
  | encodeOne

/-- The session slot plus the encode-order history. -/
structure TraceState where
  session : Option VideoRecordingSession
  encodedSeq : List Nat

/-- Effect of one event. -/
def traceStep (ov : Nat) (t : TraceState) : SessOp → TraceState
  | .push str mem =>
    { t with session := (niceshot_record_frame ov mem str t.session).session }
  | .encodeOne =>
    match t.session with
    | none => t
    | some s =>
      let p := video_encoding_step ov s
      { session := some p.1
        encodedSeq :=
          t.encodedSeq ++ (match p.2 with | none => [] | some f => [f.frame_number]) }

/-- Run a list of events. -/
def runTrace (ov : Nat) (t : TraceState) : List SessOp → TraceState
  | [] => t
  | op :: rest => runTrace ov (traceStep ov t op) rest

/-- Current buffer memory of the session slot (0 when no session). -/
def recCurrentMemory (g : Option VideoRecordingSession) : Nat :=
  match g with
  | none => 0
  | some s => s.current_buffer_memory

/-- Memory ceiling of the session slot (0 when no session). -/
def recMaxMemory (g : Option VideoRecordingSession) : Nat :=
  match g with
  | none => 0
  | some s => s.max_buffer_memory

/-- frames_encoded of the session slot (0 when no session). -/
def recEncodedCount (g : Option VideoRecordingSession) : Nat :=
  match g with
  | none => 0
  | some s => s.frames_encoded

/-- frames_captured of the session slot (0 when no session). -/
def recCapturedCount (g : Option VideoRecordingSession) : Nat :=
  match g with
  | none => 0
  | some s => s.frames_captured

/-- Frame numbers currently buffered, head first (empty when no session). -/
def recBufferNumbers (g : Option VideoRecordingSession) : List Nat :=
  match g with
  | none => []
  | some s => s.frame_buffer.map VideoFrame.frame_number

/-! ### Async PNG job system -/

/-- enum class JobStatus. -/
inductive JobStatus where
  | QUEUED
  | PROCESSING
  | COMPLETED
  | FAILED
deriving DecidableEq, Repr

/-- Numeric values of JobStatus, as returned through the double ABI. -/
def JobStatus.code : JobStatus → Int
  | .QUEUED => 0
  | .PROCESSING => 1
  | .COMPLETED => 2
  | .FAILED => -1

/-- struct PngJob.  buffer_data is the copied byte vector, stored as its
length plus a byte function. -/
structure PngJob where
  job_id : Nat
  buffer_data_len : Nat
  buffer_data : Nat → Nat
  width : Nat
  height : Nat
  filepath : String
  status : JobStatus
  error_message : String

/-- The PngJob constructor: copies (size_t)width * height * 4 bytes from
the source pointer, status QUEUED. -/
def PngJob.make (mem : Nat → Nat) (id addr w h : Nat) (path : String) : PngJob :=
  let buffer_size := umul (umul w h) 4
  { job_id := id
    buffer_data_len := buffer_size
    buffer_data := fun i => mem (addr + i)
    width := w
    height := h
    filepath := path
    status := .QUEUED
    error_message := "" }

/-- Lookup in the g_active_jobs unordered_map, modelled as an association
list with first-match lookup. -/
def findJob (id : Nat) : List (Nat × PngJob) → Option PngJob
  | [] => none
  | (k, j) :: rest => if k = id then some j else findJob id rest

/-- unordered_map::erase of one key (removes the first matching entry; the
map keeps keys unique). -/
def eraseJob (id : Nat) : List (Nat × PngJob) → List (Nat × PngJob)
  | [] => []
  | (k, j) :: rest => if k = id then rest else (k, j) :: eraseJob id rest

/-- unordered_map operator[] assignment: replace the entry for the key if
present, append otherwise. -/
def insertJob (id : Nat) (job : PngJob) : List (Nat × PngJob) → List (Nat × PngJob)
  | [] => [(id, job)]
  | (k, j) :: rest =>
    if k = id then (id, job) :: rest else (k, j) :: insertJob id job rest

/-- The process-wide state of the async PNG system: the globals of the
source file.  g_worker_threads is the number of live worker threads;
g_job_queue holds job ids front first (the queue entries alias the
registry entries via shared_ptr, so the job data lives in
g_active_jobs). -/
structure SysState where
  g_initialized : Bool
  g_thread_count : Nat
  g_next_job_id : Nat
  g_job_queue : List Nat
  g_active_jobs : List (Nat × PngJob)
  g_worker_threads : Nat
  g_worker_thread_running : Bool
  g_shutdown_requested : Bool

/-- niceshot_init.  hw models std::thread::hardware_concurrency().  The
exception path (thread spawn failure) is not modelled. -/
def niceshot_init (hw : Nat) (st : SysState) : Int × SysState :=
  if st.g_initialized then (1, st)
  else
    let thread_count :=
      if st.g_thread_count = 0 then
        let hw_threads := if hw = 0 then 1 else hw
        if hw_threads > 8 then 8 else hw_threads
      else st.g_thread_count
    (1,
      { st with
        g_thread_count := thread_count
        g_shutdown_requested := false
        g_worker_thread_running := true
        g_worker_threads := thread_count
        g_initialized := true })

/-- niceshot_shutdown: a no-op success when not initialized; otherwise
signals and joins the workers, clears the queue and the registry, resets
the id counter to 1 and clears the initialized flag. -/
def niceshot_shutdown (st : SysState) : Int × SysState :=
  if st.g_initialized = false then (1, st)
  else
    (1,
      { st with
        g_shutdown_requested := true
        g_worker_threads := 0
        g_worker_thread_running := false
        g_job_queue := []
        g_active_jobs := []
        g_next_job_id := 1
        g_initialized := false })

/-- niceshot_get_pending_job_count: -1.0 when not initialized, else the
queue depth. -/
def niceshot_get_pending_job_count (st : SysState) : Int :=
  if st.g_initialized = false then -1 else (st.g_job_queue.length : Int)

/-- niceshot_save_png_async.  none string arguments model NULL pointers;
mem is the host memory.  Returns the double code (the job id, or 0.0 on
validation failure) and the state afterwards.  The out-of-memory path of
the PngJob allocation is not modelled. -/
def niceshot_save_png_async (mem : Nat → Nat) (st : SysState)
    (buffer_ptr_str : Option String) (width height : Int) (filepath : Option String) :
    Int × SysState :=
  if st.g_initialized = false then (0, st)
  else
    match buffer_ptr_str, filepath with
    | some bstr, some path =>
      if width ≤ 0 ∨ height ≤ 0 then (0, st)
      else
        match scanHexLLX bstr with
        | none => (0, st)
        | some buffer_addr =>
          if buffer_addr = 0 then (0, st)
          else
            let img_width := doubleToU32 width
            let img_height := doubleToU32 height
            let job_id := st.g_next_job_id
            let job := PngJob.make mem job_id buffer_addr img_width img_height path
            ((job_id : Int),
              { st with
                g_next_job_id := (st.g_next_job_id + 1) % 2 ^ 32
                g_job_queue := st.g_job_queue ++ [job_id]
                g_active_jobs := insertJob job_id job st.g_active_jobs })
    | _, _ => (0, st)

/-- niceshot_get_job_status: -2.0 when not initialized, for the id 0, or
for an unknown id; otherwise the job status code. -/
def niceshot_get_job_status (st : SysState) (job_id : Int) : Int :=
  if st.g_initialized = false then -2
  else
    let id := doubleToU32 job_id
    if id = 0 then -2
    else
      match findJob id st.g_active_jobs with
      | none => -2
      | some j => j.status.code

/-- niceshot_cleanup_job: removes the job and returns 1.0 only when it is
registered with a terminal (COMPLETED or FAILED) status; 0.0 otherwise. -/
def niceshot_cleanup_job (st : SysState) (job_id : Int) : Int × SysState :=
  if st.g_initialized = false then (0, st)
  else
    let id := doubleToU32 job_id
    if id = 0 then (0, st)
    else
      match findJob id st.g_active_jobs with
      | none => (0, st)
      | some j =>
        if j.status = .COMPLETED ∨ j.status = .FAILED then
          (1, { st with g_active_jobs := eraseJob id st.g_active_jobs })
        else (0, st)

/-! ### Synchronous save: the address-validation prefix -/

/-- How far niceshot_save_png gets before it first reads the pixel buffer:
either it returned 0.0 during validation, or control reached the
dereference stage (the VirtualQuery probe and the first-pixel test read)
with the parsed address, together with whether the 4-byte-alignment
warning was printed on the way. -/
inductive SavePngOutcome where
  | earlyFail
  | derefStage (addr : Nat) (align_warned : Bool)
deriving DecidableEq, Repr

/-- The validation prefix of niceshot_save_png, in source order: the
initialized check; the NULL / non-positive-dimension checks; the sscanf
llx parse with its zero check; the plausibility range check
0x1000 ≤ addr ≤ 0x7FFFFFFFFFFF; the 16384-per-axis dimension check; and
the alignment check, which only logs a warning. -/
def niceshot_save_png_validate (g_initialized : Bool) (buffer_ptr_str : Option String)
    (width height : Int) (filepath : Option String) : SavePngOutcome :=
  if g_initialized = false then .earlyFail
  else
    match buffer_ptr_str, filepath with
    | some bstr, some _ =>
      if width ≤ 0 ∨ height ≤ 0 then .earlyFail
      else
        match scanHexLLX bstr with
        | none => .earlyFail
        | some buffer_addr =>
          if buffer_addr = 0 then .earlyFail
          else if buffer_addr < 0x1000 ∨ buffer_addr > 0x7FFFFFFFFFFF then .earlyFail
          else
            let img_width := doubleToU32 width
            let img_height := doubleToU32 height
            if img_width > 16384 ∨ img_height > 16384 then .earlyFail
            else .derefStage buffer_addr (decide (buffer_addr % 4 ≠ 0))
    | _, _ => .earlyFail

/-! ### Supporting lemmas -/

theorem encodeSteps_spec (ov : Nat) :
    ∀ (k : Nat) (s : VideoRecordingSession),
      (encodeSteps ov k s).frames_captured = s.frames_captured ∧
      (encodeSteps ov k s).frames_dropped = s.frames_dropped ∧
      (encodeSteps ov k s).frames_encoded =
        s.frames_encoded + min k s.frame_buffer.length := by
  intro k
  induction k with
  | zero =>
    intro s
    simp [encodeSteps]
  | succ k ih =>
    intro s
    cases hb : s.frame_buffer with
    | nil =>
      have hstep : (video_encoding_step ov s).1 = s := by
        simp [video_encoding_step, hb]
      obtain ⟨h1, h2, h3⟩ := ih s
      refine ⟨?_, ?_, ?_⟩
      · rw [encodeSteps, hstep]
        exact h1
      · rw [encodeSteps, hstep]
        exact h2
      · rw [encodeSteps, hstep, h3, hb]
        simp
    | cons frame rest =>
      have hstep : (video_encoding_step ov s).1 =
          { s with
            frame_buffer := rest
            current_buffer_memory :=
              usub s.current_buffer_memory (frame.get_memory_size ov)
            frames_encoded := s.frames_encoded + 1 } := by
        simp [video_encoding_step, hb]
      obtain ⟨h1, h2, h3⟩ := ih
        { s with
          frame_buffer := rest
          current_buffer_memory :=
            usub s.current_buffer_memory (frame.get_memory_size ov)
          frames_encoded := s.frames_encoded + 1 }
      refine ⟨?_, ?_, ?_⟩
      · rw [encodeSteps, hstep]
        exact h1
      · rw [encodeSteps, hstep]
        exact h2
      · rw [encodeSteps, hstep, h3]
        simp [Nat.succ_min_succ]
        omega

/-- niceshot_record_frame never touches a g_recording_session slot whose
status is not RECORDING. -/
theorem record_frame_not_recording (ov : Nat) (mem : Nat → Nat) (str : Option String)
    (sess : VideoRecordingSession) (hst : sess.status ≠ .RECORDING) :
    niceshot_record_frame ov mem str (some sess) = ⟨0, some sess, false⟩ := by
  cases str with
  | none => rfl
  | some s => simp [niceshot_record_frame, hst]

/-! ### Claims about the capture session hot path -/

/-- C1: while a session is RECORDING, a frame push whose footprint
(width * height * 4 + sizeof(VideoFrame)) does not fit under the memory
ceiling returns the Dropped code -1.0, bumps frames_dropped by exactly
one, and leaves everything else — in particular current_buffer_memory and
the frame buffer — untouched; no pixel copy is made, since the admission
check precedes the VideoFrame construction. -/
theorem record_frame_drop_on_full_buffer (ov : Nat) (mem : Nat → Nat) (str : String)
    (sess : VideoRecordingSession) (addr : Nat)
    (hparse : scanHexLLX str = some addr) (haddr : addr ≠ 0)
    (hrec : sess.status = .RECORDING)
    (hnowrap : sess.current_buffer_memory + frameSizeOf ov sess < U64)
    (hfull : sess.max_buffer_memory < sess.current_buffer_memory + frameSizeOf ov sess) :
    niceshot_record_frame ov mem (some str) (some sess) =
      ⟨-1, some { sess with frames_dropped := sess.frames_dropped + 1 }, false⟩ := by
  simp only [niceshot_record_frame, hparse, hrec]
  rw [if_neg (by simp), if_neg haddr, if_pos (by rw [uadd_eq_of_lt hnowrap]; exact hfull)]

/-- Session used to instantiate the drop theorem: 2 x 2 RGBA frames with
sizeof(VideoFrame) = 64, so each frame occupies 80 bytes, with a one-frame
ceiling already reached. -/
def c1sess : VideoRecordingSession :=
  { width := 2, height := 2, fps := 60, bitrate_kbps := 5000, output_filepath := "v.h264",
    max_buffer_frames := 1, frame_buffer := [], status := .RECORDING,
    frames_captured := 1, frames_encoded := 1, frames_dropped := 7,
    current_buffer_memory := 80, max_buffer_memory := 80, stop_encoding := false }

theorem record_frame_drop_on_full_buffer_witness :
    niceshot_record_frame 64 (fun _ => 0) (some "10a0") (some c1sess) =
      ⟨-1, some { c1sess with frames_dropped := 8 }, false⟩ :=
  record_frame_drop_on_full_buffer 64 (fun _ => 0) "10a0" c1sess 0x10a0
    (by decide) (by decide) (by decide) (by decide) (by decide)

/-- C3: a niceshot_start_recording call made while the existing session has
status RECORDING fails with 0.0 and leaves the existing session — its
counters, buffer and status — untouched, whatever the other arguments
are.  The definedness hypothesis excludes the runs that hit the
out-of-bounds settings read (see the C10 theorem), which are undefined
behavior and have no result at all. -/
theorem start_recording_rejected_while_recording (ov : Nat) (init : Bool)
    (settings filepath : Option String) (sess : VideoRecordingSession)
    (hrec : sess.status = .RECORDING) (r : StartResult)
    (hr : niceshot_start_recording ov init settings filepath (some sess) = some r) :
    r = ⟨0, some sess⟩ := by
  cases init with
  | false =>
    simp [niceshot_start_recording] at hr
    exact hr.symm
  | true =>
    cases settings with
    | none =>
      simp [niceshot_start_recording] at hr
      exact hr.symm
    | some s =>
      cases filepath with
      | none =>
        simp [niceshot_start_recording] at hr
        exact hr.symm
      | some fp =>
        cases hsf : startFieldsOf s with
        | none => simp [niceshot_start_recording, hsf] at hr
        | some q =>
          obtain ⟨w, h, f, b, m⟩ := q
          by_cases hpos : w ≤ 0 ∨ h ≤ 0 ∨ f ≤ 0 ∨ b ≤ 0 ∨ m ≤ 0
          · simp [niceshot_start_recording, hsf, hpos] at hr
            exact hr.symm
          · simp [niceshot_start_recording, hsf, hpos, hrec] at hr
            exact hr.symm

/-- Session used to instantiate the busy-start theorem. -/
def c3sess : VideoRecordingSession :=
  { width := 640, height := 480, fps := 60, bitrate_kbps := 5000, output_filepath := "a.h264",
    max_buffer_frames := 120, frame_buffer := [], status := .RECORDING,
    frames_captured := 42, frames_encoded := 40, frames_dropped := 2,
    current_buffer_memory := 0, max_buffer_memory := 1000, stop_encoding := false }

theorem start_recording_rejected_while_recording_witness :
    niceshot_start_recording 64 true (some "640,480,60,5000,120") (some "b.h264")
      (some c3sess) = some ⟨0, some c3sess⟩ := by
  have h := start_recording_rejected_while_recording 64 true
    (some "640,480,60,5000,120") (some "b.h264") c3sess (by decide) ⟨0, some c3sess⟩
  exact h (by rfl) ▸ (by rfl)

/-- C8: niceshot_stop_recording is a no-op returning 0.0 when no session
exists or the session is not RECORDING (state unchanged); otherwise —
whatever number k of further iterations the background thread runs
between the signal and its exit — it sets FINALIZING, sets the
stop_encoding flag, joins the thread, logs the final captured / encoded /
dropped counters of the joined state and discards the session, returning
1.0. -/
theorem stop_recording_lifecycle (ov k : Nat) :
    niceshot_stop_recording ov k none = ⟨0, none, none⟩ ∧
    (∀ sess : VideoRecordingSession, sess.status ≠ .RECORDING →
      niceshot_stop_recording ov k (some sess) = ⟨0, some sess, none⟩) ∧
    (∀ sess : VideoRecordingSession, sess.status = .RECORDING →
      (stopSignalled sess).status = .FINALIZING ∧
      (stopSignalled sess).stop_encoding = true ∧
      niceshot_stop_recording ov k (some sess) =
        ⟨1, none, some (sess.frames_captured,
          sess.frames_encoded + min k sess.frame_buffer.length,
          sess.frames_dropped)⟩) := by
  refine ⟨rfl, ?_, ?_⟩
  · intro sess hst
    simp [niceshot_stop_recording, hst]
  · intro sess hst
    refine ⟨rfl, rfl, ?_⟩
    obtain ⟨h1, h2, h3⟩ := encodeSteps_spec ov k (stopSignalled sess)
    simp only [niceshot_stop_recording]
    rw [if_neg (by simp [hst])]
    rw [h1, h2, h3]
    simp [stopSignalled]

/-- Session used to instantiate the stop theorem: one buffered frame left
to drain. -/
def c8sess : VideoRecordingSession :=
  { width := 2, height := 2, fps := 60, bitrate_kbps := 5000, output_filepath := "c.h264",
    max_buffer_frames := 2, frame_buffer :=
      [{ pixel_data_len := 16, pixel_data := fun _ => 0, width := 2, height := 2,
         frame_number := 4 }],
    status := .RECORDING, frames_captured := 5, frames_encoded := 4, frames_dropped := 2,
    current_buffer_memory := 80, max_buffer_memory := 160, stop_encoding := false }

theorem stop_recording_lifecycle_witness :
    niceshot_stop_recording 64 1 (some c8sess) = ⟨1, none, some (5, 5, 2)⟩ ∧
    niceshot_stop_recording 64 1 none = ⟨0, none, none⟩ :=
  ⟨((stop_recording_lifecycle 64 1).2.2 c8sess (by decide)).2.2,
    (stop_recording_lifecycle 64 1).1⟩

/-- C9 counterexample: an address that parses, is nonzero and lies inside
the sane range but is not 4-byte aligned is not rejected — the alignment
check only prints a warning, and control proceeds to the buffer
dereference stage. -/
theorem save_png_misaligned_address_not_rejected :
    (0x1001 : Nat) % 4 ≠ 0 ∧
    niceshot_save_png_validate true (some "1001") 100 100 (some "out.png") =
      .derefStage 0x1001 true :=
  ⟨by decide, by decide⟩

/-- C9 (amended): niceshot_save_png returns 0.0 before any buffer read when
the address string fails to parse, parses to zero, or parses outside
[0x1000, 0x7FFFFFFFFFFF]; every run that reaches the dereference stage
carries a parsed, nonzero, in-range address.  Misalignment does not cause
failure: it only sets the warning flag, which is reported exactly when
the address is not 4-byte aligned. -/
theorem save_png_address_validation (init : Bool) (bstr path : Option String)
    (width height : Int) :
    (init = false → niceshot_save_png_validate init bstr width height path = .earlyFail) ∧
    (∀ s, bstr = some s → scanHexLLX s = none →
      niceshot_save_png_validate init bstr width height path = .earlyFail) ∧
    (∀ s, bstr = some s → scanHexLLX s = some 0 →
      niceshot_save_png_validate init bstr width height path = .earlyFail) ∧
    (∀ s a, bstr = some s → scanHexLLX s = some a → a < 0x1000 →
      niceshot_save_png_validate init bstr width height path = .earlyFail) ∧
    (∀ s a, bstr = some s → scanHexLLX s = some a → 0x7FFFFFFFFFFF < a →
      niceshot_save_png_validate init bstr width height path = .earlyFail) ∧
    (∀ a w, niceshot_save_png_validate init bstr width height path = .derefStage a w →
      ∃ s, bstr = some s ∧ scanHexLLX s = some a ∧ a ≠ 0 ∧ 0x1000 ≤ a ∧
        a ≤ 0x7FFFFFFFFFFF ∧ (w = true ↔ a % 4 ≠ 0)) := by
  refine ⟨?_, ?_, ?_, ?_, ?_, ?_⟩
  · intro h
    simp [niceshot_save_png_validate, h]
  · intro s hb hp
    subst hb
    unfold niceshot_save_png_validate
    repeat' split
    all_goals simp_all
  · intro s hb hp
    subst hb
    unfold niceshot_save_png_validate
    repeat' split
    all_goals simp_all
  · intro s a hb hp hlt
    subst hb
    unfold niceshot_save_png_validate
    repeat' split
    all_goals simp_all
    omega
  · intro s a hb hp hgt
    subst hb
    unfold niceshot_save_png_validate
    repeat' split
    all_goals simp_all
    omega
  · intro a w h
    cases bstr with
    | none =>
      cases init <;> simp [niceshot_save_png_validate] at h
    | some s =>
      cases path with
      | none => cases init <;> simp [niceshot_save_png_validate] at h
      | some p =>
        cases init with
        | false => simp [niceshot_save_png_validate] at h
        | true =>
          by_cases hwh : width ≤ 0 ∨ height ≤ 0
          · simp [niceshot_save_png_validate, hwh] at h
          · cases hp : scanHexLLX s with
            | none => simp [niceshot_save_png_validate, hwh, hp] at h
            | some addr =>
              by_cases h0 : addr = 0
              · simp [niceshot_save_png_validate, hwh, hp, h0] at h
              · by_cases hrange : addr < 0x1000 ∨ addr > 0x7FFFFFFFFFFF
                · simp [niceshot_save_png_validate, hwh, hp, h0, hrange] at h
                · by_cases hdim : doubleToU32 width > 16384 ∨ doubleToU32 height > 16384
                  · simp [niceshot_save_png_validate, hwh, hp, h0, hrange, hdim] at h
                  · simp only [niceshot_save_png_validate, hwh, hp, h0, hrange, hdim,
                      if_false, if_neg, ite_false] at h
                    have h' : addr = a ∧ decide (addr % 4 ≠ 0) = w := by
                      simpa [niceshot_save_png_validate, hwh, hp, h0, hrange, hdim] using h
                    obtain ⟨ha, hw⟩ := h'
                    subst ha
                    refine ⟨s, rfl, hp, h0, by omega, by omega, ?_⟩
                    rw [← hw]
                    simp

theorem save_png_address_validation_witness :
    niceshot_save_png_validate true (some "800000000000") 100 100 (some "o.png") =
      .earlyFail ∧
    niceshot_save_png_validate true (some "fff") 100 100 (some "o.png") = .earlyFail :=
  ⟨(save_png_address_validation true (some "800000000000") (some "o.png")
      100 100).2.2.2.2.1 "800000000000" 0x800000000000 rfl (by decide) (by decide),
    (save_png_address_validation true (some "fff") (some "o.png")
      100 100).2.2.2.1 "fff" 0xfff rfl (by decide) (by decide)⟩

/-- C10: the settings parse of niceshot_start_recording reads params[0]
through params[4] even when the comma split did not produce five fields —
the size-check branch only logs and does not return — so a settings
string with fewer than five fields drives the std::vector indexing out of
bounds (undefined behavior, modelled as a none result).  Concretely,
"640,480" splits into two fields and the run has no defined result. -/
theorem start_recording_out_of_bounds_on_short_settings :
    splitComma ("640,480".data) = ["640", "480"] ∧
    startFieldsOf "640,480" = none ∧
    niceshot_start_recording 64 true (some "640,480") (some "out.h264") none = none :=
  ⟨by decide, by rfl, by rfl⟩

/-! ### Recording traces: invariants -/

/-- The trace start state: the session slot as niceshot_start_recording
leaves it, and an empty encode history. -/
def initialTrace (ov w h : Nat) (f b : Int) (maxf : Nat) (path : String) : TraceState :=
  ⟨some (startedSession ov w h f b maxf path), []⟩

/-- Order invariant: the encode history followed by the buffered frame
numbers is exactly 0, 1, ..., frames_captured - 1, and the history length
is frames_encoded. -/
def OrderInv (t : TraceState) : Prop :=
  ∃ s, t.session = some s ∧ s.status = .RECORDING ∧
    t.encodedSeq ++ s.frame_buffer.map VideoFrame.frame_number =
      List.range s.frames_captured ∧
    t.encodedSeq.length = s.frames_encoded

theorem orderInv_init (ov w h : Nat) (f b : Int) (maxf : Nat) (path : String) :
    OrderInv (initialTrace ov w h f b maxf path) :=
  ⟨startedSession ov w h f b maxf path, rfl, rfl, by
    simp [initialTrace, startedSession, VideoRecordingSession.make], rfl⟩

theorem orderInv_step (ov : Nat) (t : TraceState) (op : SessOp) (hI : OrderInv t) :
    OrderInv (traceStep ov t op) := by
  obtain ⟨s, hs, hst, hord, hlen⟩ := hI
  cases op with
  | push str mem =>
    simp only [traceStep, hs]
    cases str with
    | none => exact ⟨s, rfl, hst, hord, hlen⟩
    | some str0 =>
      cases hp : scanHexLLX str0 with
      | none =>
        refine ⟨s, ?_, hst, hord, hlen⟩
        simp [niceshot_record_frame, hst, hp]
      | some addr =>
        by_cases ha : addr = 0
        · refine ⟨s, ?_, hst, hord, hlen⟩
          simp [niceshot_record_frame, hst, hp, ha]
        · by_cases hfull :
              s.max_buffer_memory < uadd s.current_buffer_memory (frameSizeOf ov s)
          · refine ⟨{ s with frames_dropped := s.frames_dropped + 1 }, ?_, hst, hord, hlen⟩
            simp [niceshot_record_frame, hst, hp, ha, hfull]
          · refine ⟨{ s with
                current_buffer_memory := uadd s.current_buffer_memory
                  ((VideoFrame.make mem addr s.width s.height
                    s.frames_captured).get_memory_size ov)
                frame_buffer := s.frame_buffer ++
                  [VideoFrame.make mem addr s.width s.height s.frames_captured]
                frames_captured := s.frames_captured + 1 }, ?_, hst, ?_, ?_⟩
            · simp [niceshot_record_frame, hst, hp, ha, hfull]
            · show t.encodedSeq ++
                (s.frame_buffer ++
                  [VideoFrame.make mem addr s.width s.height s.frames_captured]).map
                    VideoFrame.frame_number =
                List.range (s.frames_captured + 1)
              rw [List.map_append, List.range_succ, ← List.append_assoc, hord]
              simp [VideoFrame.make]
            · exact hlen
  | encodeOne =>
    simp only [traceStep, hs]
    cases hb : s.frame_buffer with
    | nil =>
      refine ⟨s, ?_, hst, ?_, ?_⟩
      · simp [video_encoding_step, hb]
      · simpa [video_encoding_step, hb] using hord
      · simpa [video_encoding_step, hb] using hlen
    | cons frame rest =>
      refine ⟨{ s with
          frame_buffer := rest
          current_buffer_memory :=
            usub s.current_buffer_memory (frame.get_memory_size ov)
          frames_encoded := s.frames_encoded + 1 }, ?_, hst, ?_, ?_⟩
      · simp [video_encoding_step, hb]
      · show (t.encodedSeq ++
            (match (video_encoding_step ov s).2 with
              | none => [] | some fr => [fr.frame_number])) ++
            rest.map VideoFrame.frame_number = List.range s.frames_captured
        rw [hb] at hord
        simp only [video_encoding_step, hb]
        rw [List.append_assoc]
        simpa using hord
      · show (t.encodedSeq ++
            (match (video_encoding_step ov s).2 with
              | none => [] | some fr => [fr.frame_number])).length = s.frames_encoded + 1
        simp [video_encoding_step, hb, hlen]

theorem orderInv_run (ov : Nat) (t : TraceState) (ops : List SessOp) (hI : OrderInv t) :
    OrderInv (runTrace ov t ops) := by
  induction ops generalizing t with
  | nil => exact hI
  | cons op rest ih => exact ih (traceStep ov t op) (orderInv_step ov t op hI)

/-- C4: accepted frames are encoded in strict capture order.  Over every
interleaving of pushes and background-thread pops starting from a fresh
RECORDING session, the sequence of frame numbers the encoder has consumed
is exactly 0, 1, ..., frames_encoded - 1 (the first frames_captured
numbers, in order), and together with the still-buffered frame numbers it
is exactly 0, 1, ..., frames_captured - 1: pushes append at the tail, the
encoder pops the head, and no reordering is possible. -/
theorem capture_frames_encoded_in_fifo_order (ov w h : Nat) (f b : Int) (maxf : Nat)
    (path : String) (ops : List SessOp) :
    (runTrace ov (initialTrace ov w h f b maxf path) ops).encodedSeq =
      List.range
        (recEncodedCount (runTrace ov (initialTrace ov w h f b maxf path) ops).session) ∧
    (runTrace ov (initialTrace ov w h f b maxf path) ops).encodedSeq ++
        recBufferNumbers (runTrace ov (initialTrace ov w h f b maxf path) ops).session =
      List.range
        (recCapturedCount (runTrace ov (initialTrace ov w h f b maxf path) ops).session) := by
  obtain ⟨s, hs, hst, hord, hlen⟩ :=
    orderInv_run ov (initialTrace ov w h f b maxf path) ops
      (orderInv_init ov w h f b maxf path)
  constructor
  · have hpre : (runTrace ov (initialTrace ov w h f b maxf path) ops).encodedSeq =
        (List.range s.frames_captured).take
          (runTrace ov (initialTrace ov w h f b maxf path) ops).encodedSeq.length := by
      rw [← hord, List.take_left]
    rw [hpre, hlen, List.take_range, hs, recEncodedCount]
    congr 1
    have hcap : s.frames_encoded + s.frame_buffer.length = s.frames_captured := by
      have := congrArg List.length hord
      simpa [hlen] using this
    omega
  · rw [hs, recBufferNumbers, recCapturedCount]
    exact hord

/-- Memory invariant, for parameters whose true frame size and ceiling fit
in size_t: the ceiling carries the documented formula, every buffered
frame was copied at the session dimensions, current_buffer_memory is
exactly the frame footprint times the buffer occupancy, and it never
exceeds the ceiling. -/
def MemInv (ov w h maxf : Nat) (t : TraceState) : Prop :=
  ∃ s, t.session = some s ∧ s.width = w ∧ s.height = h ∧
    s.max_buffer_memory = (w * h * 4 + ov) * maxf ∧
    (∀ fr ∈ s.frame_buffer, fr.pixel_data_len = w * h * 4) ∧
    s.current_buffer_memory = (w * h * 4 + ov) * s.frame_buffer.length ∧
    s.current_buffer_memory ≤ s.max_buffer_memory

theorem frame_size_eval (ov w h : Nat) (hF : w * h * 4 + ov < U64) :
    uadd (umul (umul w h) 4) ov = w * h * 4 + ov := by
  have h4 : w * h * 4 < U64 := by omega
  have h1 : umul (umul w h) 4 = w * h * 4 := by
    unfold umul
    rw [Nat.mod_mul_mod]
    exact Nat.mod_eq_of_lt h4
  rw [h1]
  exact uadd_eq_of_lt hF

theorem memInv_init (ov w h : Nat) (f b : Int) (maxf : Nat) (path : String)
    (hno : (w * h * 4 + ov) * (maxf + 1) < U64) :
    MemInv ov w h maxf (initialTrace ov w h f b maxf path) := by
  have hF : w * h * 4 + ov < U64 := by
    have h1 : (w * h * 4 + ov) * 1 ≤ (w * h * 4 + ov) * (maxf + 1) :=
      Nat.mul_le_mul_left _ (by omega)
    omega
  have hceil : (w * h * 4 + ov) * maxf < U64 := by
    have h1 : (w * h * 4 + ov) * maxf ≤ (w * h * 4 + ov) * (maxf + 1) :=
      Nat.mul_le_mul_left _ (by omega)
    omega
  refine ⟨startedSession ov w h f b maxf path, rfl, rfl, rfl, ?_, ?_, ?_, ?_⟩
  · show umul (uadd (umul (umul w h) 4) ov) maxf = (w * h * 4 + ov) * maxf
    rw [frame_size_eval ov w h hF]
    exact umul_eq_of_lt hceil
  · intro fr hfr
    simp [startedSession, VideoRecordingSession.make] at hfr
  · simp [startedSession, VideoRecordingSession.make]
  · simp [startedSession, VideoRecordingSession.make]

theorem memInv_step (ov w h maxf : Nat) (hno : (w * h * 4 + ov) * (maxf + 1) < U64)
    (t : TraceState) (op : SessOp) (hI : MemInv ov w h maxf t) :
    MemInv ov w h maxf (traceStep ov t op) := by
  have hF : w * h * 4 + ov < U64 := by
    have h1 : (w * h * 4 + ov) * 1 ≤ (w * h * 4 + ov) * (maxf + 1) :=
      Nat.mul_le_mul_left _ (by omega)
    omega
  have hceil : (w * h * 4 + ov) * maxf < U64 := by
    have h1 : (w * h * 4 + ov) * maxf ≤ (w * h * 4 + ov) * (maxf + 1) :=
      Nat.mul_le_mul_left _ (by omega)
    omega
  obtain ⟨s, hs, hw, hh, hmax, hfr, hcur, hle⟩ := hI
  have hfsz : frameSizeOf ov s = w * h * 4 + ov := by
    unfold frameSizeOf
    rw [hw, hh]
    exact frame_size_eval ov w h hF
  have hcur_lt : s.current_buffer_memory < U64 := by
    have h2 : s.current_buffer_memory ≤ (w * h * 4 + ov) * maxf := hmax ▸ hle
    omega
  cases op with
  | push str mem =>
    simp only [traceStep, hs]
    cases str with
    | none => exact ⟨s, rfl, hw, hh, hmax, hfr, hcur, hle⟩
    | some str0 =>
      by_cases hst : s.status = .RECORDING
      · cases hp : scanHexLLX str0 with
        | none =>
          refine ⟨s, ?_, hw, hh, hmax, hfr, hcur, hle⟩
          simp [niceshot_record_frame, hst, hp]
        | some addr =>
          by_cases ha : addr = 0
          · refine ⟨s, ?_, hw, hh, hmax, hfr, hcur, hle⟩
            simp [niceshot_record_frame, hst, hp, ha]
          · have hsum : s.current_buffer_memory + (w * h * 4 + ov) < U64 := by
              rcases Nat.eq_zero_or_pos (w * h * 4 + ov) with hzero | hpos
              · have hz : s.current_buffer_memory = 0 := by
                  rw [hcur, hzero, Nat.zero_mul]
                have hU : 0 < U64 := by decide
                omega
              · have hlen_le : s.frame_buffer.length ≤ maxf := by
                  have h2 : (w * h * 4 + ov) * s.frame_buffer.length ≤
                      (w * h * 4 + ov) * maxf := by
                    rw [← hcur, ← hmax]
                    exact hle
                  exact Nat.le_of_mul_le_mul_left h2 hpos
                have h3 : (w * h * 4 + ov) * (s.frame_buffer.length + 1) ≤
                    (w * h * 4 + ov) * (maxf + 1) :=
                  Nat.mul_le_mul_left _ (by omega)
                calc s.current_buffer_memory + (w * h * 4 + ov)
                    = (w * h * 4 + ov) * (s.frame_buffer.length + 1) := by
                      rw [hcur]; ring
                  _ ≤ (w * h * 4 + ov) * (maxf + 1) := h3
                  _ < U64 := hno
            have huadd : uadd s.current_buffer_memory (frameSizeOf ov s) =
                s.current_buffer_memory + (w * h * 4 + ov) := by
              rw [hfsz]
              exact uadd_eq_of_lt hsum
            by_cases hfull :
                s.max_buffer_memory < uadd s.current_buffer_memory (frameSizeOf ov s)
            · refine ⟨{ s with frames_dropped := s.frames_dropped + 1 }, ?_, hw, hh,
                hmax, hfr, hcur, hle⟩
              simp [niceshot_record_frame, hst, hp, ha, hfull]
            · have hfit : s.current_buffer_memory + (w * h * 4 + ov) ≤
                  s.max_buffer_memory := by
                rw [huadd] at hfull
                omega
              have hframe_len : (VideoFrame.make mem addr s.width s.height
                  s.frames_captured).pixel_data_len = w * h * 4 := by
                show umul (umul s.width s.height) 4 = w * h * 4
                rw [hw, hh]
                have h4 : w * h * 4 < U64 := by omega
                unfold umul
                rw [Nat.mod_mul_mod]
                exact Nat.mod_eq_of_lt h4
              have hframe_sz : (VideoFrame.make mem addr s.width s.height
                  s.frames_captured).get_memory_size ov = w * h * 4 + ov := by
                show uadd (VideoFrame.make mem addr s.width s.height
                  s.frames_captured).pixel_data_len ov = w * h * 4 + ov
                rw [hframe_len]
                exact uadd_eq_of_lt hF
              have hnew : uadd s.current_buffer_memory
                  ((VideoFrame.make mem addr s.width s.height
                    s.frames_captured).get_memory_size ov) =
                  s.current_buffer_memory + (w * h * 4 + ov) := by
                rw [hframe_sz]
                exact uadd_eq_of_lt hsum
              refine ⟨{ s with
                  current_buffer_memory := uadd s.current_buffer_memory
                    ((VideoFrame.make mem addr s.width s.height
                      s.frames_captured).get_memory_size ov)
                  frame_buffer := s.frame_buffer ++
                    [VideoFrame.make mem addr s.width s.height s.frames_captured]
                  frames_captured := s.frames_captured + 1 }, ?_, hw, hh, hmax, ?_, ?_, ?_⟩
              · simp [niceshot_record_frame, hst, hp, ha, hfull]
              · intro fr hmem
                rcases List.mem_append.mp hmem with hmem1 | hmem2
                · exact hfr fr hmem1
                · rw [List.mem_singleton.mp hmem2]
                  exact hframe_len
              · show uadd s.current_buffer_memory ((VideoFrame.make mem addr s.width
                    s.height s.frames_captured).get_memory_size ov) =
                  (w * h * 4 + ov) *
                    (s.frame_buffer ++ [VideoFrame.make mem addr s.width s.height
                      s.frames_captured]).length
                rw [hnew, hcur]
                simp [List.length_append]
                ring
              · show uadd s.current_buffer_memory ((VideoFrame.make mem addr s.width
                    s.height s.frames_captured).get_memory_size ov) ≤ s.max_buffer_memory
                rw [hnew]
                exact hfit
      · refine ⟨s, ?_, hw, hh, hmax, hfr, hcur, hle⟩
        rw [record_frame_not_recording ov mem (some str0) s hst]
  | encodeOne =>
    simp only [traceStep, hs]
    cases hb : s.frame_buffer with
    | nil =>
      refine ⟨s, ?_, hw, hh, hmax, hfr, hcur, hle⟩
      simp [video_encoding_step, hb]
    | cons frame rest =>
      have hframe_len : frame.pixel_data_len = w * h * 4 :=
        hfr frame (by rw [hb]; exact List.mem_cons_self _ _)
      have hframe_sz : frame.get_memory_size ov = w * h * 4 + ov := by
        show uadd frame.pixel_data_len ov = w * h * 4 + ov
        rw [hframe_len]
        exact uadd_eq_of_lt hF
      have hge : frame.get_memory_size ov ≤ s.current_buffer_memory := by
        rw [hframe_sz, hcur, hb]
        have h1 : (w * h * 4 + ov) * 1 ≤ (w * h * 4 + ov) * (frame :: rest).length :=
          Nat.mul_le_mul_left _ (by simp)
        simpa using h1
      refine ⟨{ s with
          frame_buffer := rest
          current_buffer_memory :=
            usub s.current_buffer_memory (frame.get_memory_size ov)
          frames_encoded := s.frames_encoded + 1 }, ?_, hw, hh, hmax, ?_, ?_, ?_⟩
      · simp [video_encoding_step, hb]
      · intro fr hmem
        exact hfr fr (by rw [hb]; exact List.mem_cons_of_mem _ hmem)
      · show usub s.current_buffer_memory (frame.get_memory_size ov) =
          (w * h * 4 + ov) * rest.length
        rw [usub_eq_of_le hge hcur_lt, hframe_sz, hcur, hb, List.length_cons,
          Nat.mul_succ]
        omega
      · show usub s.current_buffer_memory (frame.get_memory_size ov) ≤
          s.max_buffer_memory
        rw [usub_eq_of_le hge hcur_lt]
        omega

theorem memInv_run (ov w h maxf : Nat) (hno : (w * h * 4 + ov) * (maxf + 1) < U64)
    (t : TraceState) (ops : List SessOp) (hI : MemInv ov w h maxf t) :
    MemInv ov w h maxf (runTrace ov t ops) := by
  induction ops generalizing t with
  | nil => exact hI
  | cons op rest ih => exact ih (traceStep ov t op) (memInv_step ov w h maxf hno t op hI)

/-- C2: the session memory ceiling carries the documented formula
maxBufferFrames * (width * height * 4 + sizeof(VideoFrame)), and along
every interleaving of pushes (which add the footprint on admission) and
background-thread pops (which subtract it), current_buffer_memory never
exceeds the ceiling — enforced by the drop branch of the admission check,
never by blocking.  The overflow hypothesis restricts the statement to
parameter choices whose true byte count fits in size_t. -/
theorem session_memory_ceiling_formula_and_bound (ov w h : Nat) (f b : Int) (maxf : Nat)
    (path : String) (ops : List SessOp)
    (hno : (w * h * 4 + ov) * (maxf + 1) < U64) :
    recMaxMemory (runTrace ov (initialTrace ov w h f b maxf path) ops).session =
      maxf * (w * h * 4 + ov) ∧
    recCurrentMemory (runTrace ov (initialTrace ov w h f b maxf path) ops).session ≤
      recMaxMemory (runTrace ov (initialTrace ov w h f b maxf path) ops).session := by
  obtain ⟨s, hs, hw, hh, hmax, hfr, hcur, hle⟩ :=
    memInv_run ov w h maxf hno (initialTrace ov w h f b maxf path) ops
      (memInv_init ov w h f b maxf path hno)
  rw [hs]
  constructor
  · show s.max_buffer_memory = maxf * (w * h * 4 + ov)
    rw [hmax]
    ring
  · exact hle

/-- A short trace instantiating the memory theorem: 2 x 2 frames with
64 bytes of per-frame overhead and a two-frame ceiling; three pushes (the
third must drop) and one pop. -/
def c2ops : List SessOp :=
  [SessOp.push (some "2000") (fun _ => 1), SessOp.push (some "2000") (fun _ => 2),
    SessOp.push (some "2000") (fun _ => 3), SessOp.encodeOne]

theorem session_memory_ceiling_formula_and_bound_witness :
    recMaxMemory (runTrace 64 (initialTrace 64 2 2 60 5000 2 "w.h264") c2ops).session =
      160 ∧
    recCurrentMemory (runTrace 64 (initialTrace 64 2 2 60 5000 2 "w.h264") c2ops).session ≤
      recMaxMemory (runTrace 64 (initialTrace 64 2 2 60 5000 2 "w.h264") c2ops).session :=
  session_memory_ceiling_formula_and_bound 64 2 2 60 5000 2 "w.h264" c2ops (by decide)

/-! ### Claims about the async PNG job system -/

/-- A freshly initialized system state with no jobs. -/
def c5st : SysState :=
  { g_initialized := true, g_thread_count := 4, g_next_job_id := 1, g_job_queue := [],
    g_active_jobs := [], g_worker_threads := 4, g_worker_thread_running := true,
    g_shutdown_requested := false }

/-- C5 counterexample: niceshot_save_png_async enforces no 16384-per-axis
upper bound.  With 20000 x 20000 requested — beyond the claimed cap on
both axes — the call does not return the invalid-id sentinel 0: it
returns job id 1 and enqueues the job. -/
theorem save_png_async_accepts_oversized_dimensions :
    (16384 : Int) < 20000 ∧
    (niceshot_save_png_async (fun _ => 0) c5st (some "2000") 20000 20000
      (some "big.png")).1 = 1 ∧
    (niceshot_save_png_async (fun _ => 0) c5st (some "2000") 20000 20000
      (some "big.png")).2.g_job_queue = [1] :=
  ⟨by decide, by decide, by decide⟩

/-- C5 (amended): niceshot_save_png_async returns the sentinel 0 and leaves
the state untouched (no job enqueued) exactly for the checks the code
performs — system not initialized, NULL buffer string or filepath,
non-positive width or height, or a buffer string that fails to parse or
parses to zero.  There is no dimension upper bound in the async path: in
every other case, whatever the dimensions, the call enqueues a job and
returns the current id-counter value (positive whenever the counter is,
which holds from initialization until 2 ^ 32 submissions). -/
theorem save_png_async_validation (mem : Nat → Nat) (st : SysState)
    (bstr : Option String) (width height : Int) (path : Option String) :
    ((st.g_initialized = false ∨ bstr = none ∨ path = none ∨ width ≤ 0 ∨ height ≤ 0 ∨
        (∃ s, bstr = some s ∧ (scanHexLLX s = none ∨ scanHexLLX s = some 0))) →
      niceshot_save_png_async mem st bstr width height path = (0, st)) ∧
    (∀ s p a, bstr = some s → path = some p → st.g_initialized = true →
      0 < width → 0 < height → scanHexLLX s = some a → a ≠ 0 →
      (niceshot_save_png_async mem st bstr width height path).1 =
        (st.g_next_job_id : Int) ∧
      (niceshot_save_png_async mem st bstr width height path).2.g_job_queue =
        st.g_job_queue ++ [st.g_next_job_id] ∧
      (niceshot_save_png_async mem st bstr width height path).2.g_next_job_id =
        (st.g_next_job_id + 1) % 2 ^ 32 ∧
      (1 ≤ st.g_next_job_id →
        1 ≤ (niceshot_save_png_async mem st bstr width height path).1)) := by
  constructor
  · intro hfail
    by_cases hinit : st.g_initialized = false
    · simp [niceshot_save_png_async, hinit]
    · have hinit' : st.g_initialized = true := by
        cases hv : st.g_initialized
        · exact absurd hv hinit
        · rfl
      rcases hfail with hfail | hfail | hfail | hfail | hfail | ⟨s, hbs, hfail⟩
      · exact absurd hfail hinit
      · subst hfail
        simp [niceshot_save_png_async, hinit']
      · subst hfail
        cases bstr with
        | none => simp [niceshot_save_png_async, hinit']
        | some s => simp [niceshot_save_png_async, hinit']
      · cases bstr with
        | none => simp [niceshot_save_png_async, hinit']
        | some s =>
          cases path with
          | none => simp [niceshot_save_png_async, hinit']
          | some p => simp [niceshot_save_png_async, hinit', hfail]
      · cases bstr with
        | none => simp [niceshot_save_png_async, hinit']
        | some s =>
          cases path with
          | none => simp [niceshot_save_png_async, hinit']
          | some p =>
            by_cases hw : width ≤ 0
            · simp [niceshot_save_png_async, hinit', hw]
            · simp [niceshot_save_png_async, hinit', hw, hfail]
      · subst hbs
        cases path with
        | none => simp [niceshot_save_png_async, hinit']
        | some p =>
          by_cases hwh : width ≤ 0 ∨ height ≤ 0
          · simp [niceshot_save_png_async, hinit', hwh]
          · rcases hfail with hfail | hfail <;>
              simp [niceshot_save_png_async, hinit', hwh, hfail]
  · intro s p a hbs hps hinit hw hh hscan ha
    subst hbs
    subst hps
    have hwh : ¬(width ≤ 0 ∨ height ≤ 0) := by omega
    have hres : niceshot_save_png_async mem st (some s) width height (some p) =
        ((st.g_next_job_id : Int),
          { st with
            g_next_job_id := (st.g_next_job_id + 1) % 2 ^ 32
            g_job_queue := st.g_job_queue ++ [st.g_next_job_id]
            g_active_jobs := insertJob st.g_next_job_id
              (PngJob.make mem st.g_next_job_id a (doubleToU32 width)
                (doubleToU32 height) p) st.g_active_jobs }) := by
      simp [niceshot_save_png_async, hinit, hwh, hscan, ha]
    refine ⟨by rw [hres], by rw [hres], by rw [hres], ?_⟩
    intro hpos
    rw [hres]
    show (1 : Int) ≤ (st.g_next_job_id : Int)
    exact_mod_cast hpos

theorem save_png_async_validation_witness :
    (niceshot_save_png_async (fun _ => 0) c5st (some "2000") 32 32 (some "ok.png")).1 = 1 ∧
    (niceshot_save_png_async (fun _ => 0) c5st (some "2000") 32 32
      (some "ok.png")).2.g_job_queue = [1] ∧
    niceshot_save_png_async (fun _ => 0) c5st none 32 32 (some "ok.png") = (0, c5st) := by
  have h := (save_png_async_validation (fun _ => 0) c5st (some "2000") 32 32
    (some "ok.png")).2 "2000" "ok.png" 0x2000 rfl rfl (by decide) (by decide) (by decide)
    (by decide) (by decide)
  exact ⟨h.1, h.2.1, (save_png_async_validation (fun _ => 0) c5st none 32 32
    (some "ok.png")).1 (Or.inr (Or.inl rfl))⟩

/-- A running system state with a nonzero id counter, used for the
shutdown claims. -/
def c6st : SysState :=
  { g_initialized := true, g_thread_count := 4, g_next_job_id := 5, g_job_queue := [],
    g_active_jobs := [], g_worker_threads := 4, g_worker_thread_running := true,
    g_shutdown_requested := false }

/-- C6 counterexample: after a shutdown the system is no longer
initialized, so niceshot_get_pending_job_count returns the
not-initialized sentinel -1.0 — not 0 as claimed (the queue itself is
empty). -/
theorem pending_job_count_after_shutdown_is_sentinel :
    niceshot_get_pending_job_count (niceshot_shutdown c6st).2 = -1 ∧
    niceshot_get_pending_job_count (niceshot_shutdown c6st).2 ≠ 0 :=
  ⟨by decide, by decide⟩

/-- C6 (amended): niceshot_shutdown always returns success; on an
initialized system it clears the job queue and the registry, resets the
job-id counter to 1 (so that a subsequent niceshot_init hands out ids
starting at 1) and drops the initialized flag; a second shutdown, and an
init on an already-initialized system, are no-op successes.  After a
shutdown, however, niceshot_get_pending_job_count returns the
not-initialized sentinel -1.0 rather than 0 — the internal queue is
empty, but the function reports the sentinel. -/
theorem shutdown_clears_state_and_lifecycle_idempotent (st : SysState) (hw : Nat) :
    (niceshot_shutdown st).1 = 1 ∧
    (st.g_initialized = false → niceshot_shutdown st = (1, st)) ∧
    (st.g_initialized = true →
      (niceshot_shutdown st).2.g_job_queue = [] ∧
      (niceshot_shutdown st).2.g_active_jobs = [] ∧
      (niceshot_shutdown st).2.g_next_job_id = 1 ∧
      (niceshot_shutdown st).2.g_initialized = false ∧
      niceshot_get_pending_job_count (niceshot_shutdown st).2 = -1 ∧
      (niceshot_init hw (niceshot_shutdown st).2).2.g_next_job_id = 1) ∧
    niceshot_shutdown (niceshot_shutdown st).2 = (1, (niceshot_shutdown st).2) ∧
    (st.g_initialized = true → niceshot_init hw st = (1, st)) := by
  refine ⟨?_, ?_, ?_, ?_, ?_⟩
  · by_cases hinit : st.g_initialized = false
    · simp [niceshot_shutdown, hinit]
    · simp [niceshot_shutdown, hinit]
  · intro hinit
    simp [niceshot_shutdown, hinit]
  · intro hinit
    have hinit' : ¬st.g_initialized = false := by simp [hinit]
    have hpost : (niceshot_shutdown st).2.g_initialized = false := by
      simp [niceshot_shutdown, hinit']
    refine ⟨?_, ?_, ?_, ?_, ?_, ?_⟩
    · simp [niceshot_shutdown, hinit']
    · simp [niceshot_shutdown, hinit']
    · simp [niceshot_shutdown, hinit']
    · exact hpost
    · simp [niceshot_get_pending_job_count, hpost]
    · simp [niceshot_init, hpost, niceshot_shutdown, hinit']
  · have hpost : (niceshot_shutdown st).2.g_initialized = false := by
      by_cases hinit : st.g_initialized = false
      · simp [niceshot_shutdown, hinit]
      · simp [niceshot_shutdown, hinit]
    generalize hst2 : (niceshot_shutdown st).2 = st2 at hpost ⊢
    simp [niceshot_shutdown, hpost]
  · intro hinit
    simp [niceshot_init, hinit]

theorem shutdown_clears_state_witness :
    (niceshot_shutdown c6st).1 = 1 ∧
    (niceshot_shutdown c6st).2.g_next_job_id = 1 ∧
    niceshot_get_pending_job_count (niceshot_shutdown c6st).2 = -1 ∧
    (niceshot_init 8 (niceshot_shutdown c6st).2).2.g_next_job_id = 1 ∧
    niceshot_init 8 c6st = (1, c6st) := by
  obtain ⟨h1, _, h3, _, h5⟩ := shutdown_clears_state_and_lifecycle_idempotent c6st 8
  obtain ⟨hq, hj, hn, hi, hp, hr⟩ := h3 rfl
  exact ⟨h1, hn, hp, hr, h5 rfl⟩

/-- Keys of the job registry. -/
theorem findJob_eq_none_of_not_mem (id : Nat) (l : List (Nat × PngJob))
    (h : id ∉ l.map Prod.fst) : findJob id l = none := by
  induction l with
  | nil => rfl
  | cons p rest ih =>
    obtain ⟨k, j⟩ := p
    have hk : k ≠ id := by
      intro hk
      exact h (by simp [hk])
    simp only [findJob]
    rw [if_neg (by exact hk)]
    exact ih (by intro hmem; exact h (by simp [hmem]))

theorem findJob_eraseJob_self (id : Nat) (l : List (Nat × PngJob))
    (hnd : (l.map Prod.fst).Nodup) : findJob id (eraseJob id l) = none := by
  induction l with
  | nil => rfl
  | cons p rest ih =>
    obtain ⟨k, j⟩ := p
    simp only [List.map_cons, List.nodup_cons] at hnd
    obtain ⟨hknot, hndrest⟩ := hnd
    simp only [eraseJob]
    by_cases hk : k = id
    · rw [if_pos hk]
      subst hk
      exact findJob_eq_none_of_not_mem k rest hknot
    · rw [if_neg hk]
      simp only [findJob]
      rw [if_neg hk]
      exact ih hndrest

/-- C7: for a registered job id (the counter hands out ids from 1, so the
id is positive and below 2 ^ 32), niceshot_cleanup_job removes the job
and returns true exactly when its status is terminal (COMPLETED or
FAILED), and is a no-op returning false otherwise; after a successful
cleanup, a second cleanup of the same id returns false and
niceshot_get_job_status returns the not-found code -2.0. -/
theorem cleanup_job_iff_terminal (st : SysState) (id : Nat) (job : PngJob)
    (hinit : st.g_initialized = true) (hid0 : id ≠ 0) (hidlt : id < 2 ^ 32)
    (hnd : (st.g_active_jobs.map Prod.fst).Nodup)
    (hfind : findJob id st.g_active_jobs = some job) :
    ((job.status = .COMPLETED ∨ job.status = .FAILED) →
      niceshot_cleanup_job st (id : Int) =
        (1, { st with g_active_jobs := eraseJob id st.g_active_jobs }) ∧
      niceshot_cleanup_job { st with g_active_jobs := eraseJob id st.g_active_jobs }
        (id : Int) = (0, { st with g_active_jobs := eraseJob id st.g_active_jobs }) ∧
      niceshot_get_job_status { st with g_active_jobs := eraseJob id st.g_active_jobs }
        (id : Int) = -2) ∧
    (¬(job.status = .COMPLETED ∨ job.status = .FAILED) →
      niceshot_cleanup_job st (id : Int) = (0, st)) := by
  have hinit' : ¬st.g_initialized = false := by simp [hinit]
  have hcast : doubleToU32 (id : Int) = id := by
    simp only [doubleToU32, Int.toNat_ofNat]
    exact Nat.mod_eq_of_lt hidlt
  have hgone : findJob id (eraseJob id st.g_active_jobs) = none :=
    findJob_eraseJob_self id st.g_active_jobs hnd
  constructor
  · intro hterm
    refine ⟨?_, ?_, ?_⟩
    · simp [niceshot_cleanup_job, hinit', hcast, hid0, hfind, hterm]
    · simp [niceshot_cleanup_job, hinit', hcast, hid0, hgone]
    · simp [niceshot_get_job_status, hinit', hcast, hid0, hgone]
  · intro hterm
    simp [niceshot_cleanup_job, hinit', hcast, hid0, hfind, hterm]

/-- A completed job and the registry states around its cleanup. -/
def c7job : PngJob :=
  { job_id := 3, buffer_data_len := 16, buffer_data := fun _ => 0, width := 2, height := 2,
    filepath := "shot.png", status := .COMPLETED, error_message := "" }

def c7st : SysState :=
  { g_initialized := true, g_thread_count := 4, g_next_job_id := 4, g_job_queue := [],
    g_active_jobs := [(3, c7job)], g_worker_threads := 4, g_worker_thread_running := true,
    g_shutdown_requested := false }

def c7stErased : SysState :=
  { c7st with g_active_jobs := [] }

theorem cleanup_job_iff_terminal_witness :
    niceshot_cleanup_job c7st 3 = (1, c7stErased) ∧
    niceshot_cleanup_job c7stErased 3 = (0, c7stErased) ∧
    niceshot_get_job_status c7stErased 3 = -2 := by
  have h := (cleanup_job_iff_terminal c7st 3 c7job rfl (by decide) (by decide)
    (by decide) rfl).1 (Or.inl rfl)
  exact ⟨h.1, h.2.1, h.2.2⟩

end NiceShot
